import Mathlib

/-!
Verification of the Toxos-Forensics viewer core: a shallow embedding of the
coordinate-transform pipeline (csvLoader.js), the top-down camera animation
(viewer.js), the hover / click interaction state machines (utils.js,
detailPanel.js), the dark-mode crossfade controller (main.js), the camera
framer (utils.js) and the resize handler (viewer.js), with theorems checking
the specification's claims against these embeddings.

Numbers are modelled as exact rationals (reals where a square root occurs);
the claims under check are structural (formulas, orderings, state-machine
invariants), not float-rounding facts.
-/

/-- A three-component vector with rational components, standing for a
`THREE.Vector3` (csvLoader.js / viewer.js). -/
structure V3 where
  x : ℚ
  y : ℚ
  z : ℚ
deriving DecidableEq, Repr

/-- `CONFIG.feetToMeters` (config.js): 1 US survey foot = 0.30480061 m. -/
def feetToMeters : ℚ := 30480061 / 100000000

/-- `CONFIG.originOffset` (config.js): the scene-origin offset subtracted
from every transformed coordinate. -/
def originOffset : V3 := ⟨304789, -158, -61801⟩

/-- `CONFIG.marker.heightOffset` (config.js): the per-marker elevation lift. -/
def markerHeightOffset : ℚ := 3

/-- `toSceneCoords` (csvLoader.js): convert an EPSG:2263 (X, Y) pair in US
survey feet into the scene coordinate system. -/
def toSceneCoords (xEpsg yEpsg : ℚ) : V3 :=
  ⟨xEpsg * feetToMeters - originOffset.x,
   markerHeightOffset - originOffset.y,
   -(yEpsg * feetToMeters) - originOffset.z⟩

/-- C1 (counterexample): the claim asserts the output's second (vertical)
component is exactly the fixed per-marker elevation lift, but at the survey
coordinate (0, 0) the code produces `markerHeightOffset - originOffset.y`
= 3 - (-158) = 161, not 3. -/
theorem toSceneCoords_elevation_cex :
    (toSceneCoords 0 0).y = 161 ∧ markerHeightOffset = 3 ∧
    (toSceneCoords 0 0).y ≠ markerHeightOffset := by
  refine ⟨by norm_num [toSceneCoords, markerHeightOffset, originOffset], rfl, ?_⟩
  norm_num [toSceneCoords, markerHeightOffset, originOffset]

/-- C1 (amended): `toSceneCoords` is a deterministic pure function returning
`(x·k - offset.x, elevationOffset - offset.y, -(y·k) - offset.z)`: the
origin offset is subtracted on the vertical axis too (matching the offset
applied to the terrain wrapper in gltfLoader.js), and the z-component
carries the sign-inverted second input coordinate. -/
theorem toSceneCoords_spec (x y x' y' : ℚ) :
    toSceneCoords x y =
      ⟨x * feetToMeters - originOffset.x,
       markerHeightOffset - originOffset.y,
       -(y * feetToMeters) - originOffset.z⟩ ∧
    (x = x' ∧ y = y' → toSceneCoords x y = toSceneCoords x' y') ∧
    (toSceneCoords x y).z - (toSceneCoords x y').z = -((y - y') * feetToMeters) := by
  refine ⟨rfl, ?_, ?_⟩
  · rintro ⟨rfl, rfl⟩; rfl
  · simp only [toSceneCoords]
    ring

/-- `Vector3.lerpVectors` (three.js), as used by the top-down animation in
viewer.js: componentwise `a + (b - a) * t`. -/
def lerpV (a b : V3) (t : ℚ) : V3 :=
  ⟨a.x + (b.x - a.x) * t,
   a.y + (b.y - a.y) * t,
   a.z + (b.z - a.z) * t⟩

/-- The `topDownAnim` record built by the dblclick handler (viewer.js):
start/end camera position, orbit target, start time `t0`, duration, and the
`done` flag. The quaternion channel is driven by the same clamped eased
fraction and the same end-snap, so the position channel embedded here carries
the timing logic once. -/
structure TopDownAnim where
  startPos : V3
  endPos : V3
  target : V3
  t0 : ℚ
  duration : ℚ
  done : Bool
deriving DecidableEq, Repr

/-- The clamped elapsed fraction computed each frame in `animate` (viewer.js):
`Math.min((now - a.t0) / a.duration, 1)`. -/
def frameT (a : TopDownAnim) (now : ℚ) : ℚ :=
  min ((now - a.t0) / a.duration) 1

/-- `easeInOutCubic` (viewer.js):
`t < 0.5 ? 4 t³ : 1 - ((-2 t + 2)³) / 2`. -/
def easeInOutCubic (t : ℚ) : ℚ :=
  if t < 1 / 2 then 4 * t * t * t else 1 - (-2 * t + 2) ^ 3 / 2

/-- The camera position `animate` (viewer.js) leaves at the end of a frame at
time `now`: the eased lerp, except that once the clamped fraction reaches 1
the exact end position is copied (`camera.position.copy(a.endPos)`). -/
def animPos (a : TopDownAnim) (now : ℚ) : V3 :=
  let t := frameT a now
  let e := easeInOutCubic t
  if 1 ≤ t then a.endPos else lerpV a.startPos a.endPos e

/-- Cubes are monotone over ℚ. -/
theorem cube_le_cube {a b : ℚ} (h : a ≤ b) : a ^ 3 ≤ b ^ 3 := by
  nlinarith [sq_nonneg (a + b), sq_nonneg (a - b), sq_nonneg a, sq_nonneg b]

/-- The configured cubic easing is monotone. -/
theorem easeInOutCubic_mono {s t : ℚ} (h : s ≤ t) :
    easeInOutCubic s ≤ easeInOutCubic t := by
  unfold easeInOutCubic
  split_ifs with hs ht ht
  · nlinarith [cube_le_cube h]
  · have h1 : s ^ 3 ≤ (1 / 2 : ℚ) ^ 3 := cube_le_cube (le_of_lt hs)
    have h2 : (-2 * t + 2) ^ 3 ≤ (1 : ℚ) ^ 3 := cube_le_cube (by linarith)
    nlinarith [h1, h2]
  · linarith
  · nlinarith [cube_le_cube (show (-2 * t + 2 : ℚ) ≤ -2 * s + 2 by linarith)]

/-- The clamped fraction is monotone in `now` when the duration is positive. -/
theorem frameT_mono (a : TopDownAnim) (hd : 0 < a.duration) {n1 n2 : ℚ}
    (h : n1 ≤ n2) : frameT a n1 ≤ frameT a n2 := by
  unfold frameT
  exact min_le_min ((div_le_div_iff_of_pos_right hd).mpr (by linarith)) le_rfl

/-- C2: for a task with positive duration, evaluating the frame interpolation
at `now = t0` yields exactly the start position; at any `now ≥ t0 + duration`
it yields exactly the end position (the end value is snapped); and the eased
fraction is monotone in `now` under the cubic ease-in-out curve. -/
theorem animate_interpolation_spec (a : TopDownAnim) (hd : 0 < a.duration)
    (n1 n2 m : ℚ) (h12 : n1 ≤ n2) (hm : a.t0 + a.duration ≤ m) :
    animPos a a.t0 = a.startPos ∧
    animPos a m = a.endPos ∧
    easeInOutCubic (frameT a n1) ≤ easeInOutCubic (frameT a n2) := by
  refine ⟨?_, ?_, easeInOutCubic_mono (frameT_mono a hd h12)⟩
  · have ht : frameT a a.t0 = 0 := by
      unfold frameT
      rw [sub_self, zero_div]
      exact min_eq_left (by norm_num)
    unfold animPos
    rw [ht, if_neg (by norm_num)]
    have he : easeInOutCubic 0 = 0 := by
      unfold easeInOutCubic
      rw [if_pos (by norm_num)]
      ring
    rw [he]
    simp [lerpV]
  · have ht : frameT a m = 1 := by
      unfold frameT
      exact min_eq_right ((le_div_iff₀ hd).mpr (by linarith))
    unfold animPos
    rw [ht, if_pos le_rfl]

/-- A concrete top-down animation task used by witnesses. -/
def tdA : TopDownAnim :=
  ⟨⟨0, 0, 0⟩, ⟨10, 20, 30⟩, ⟨10, 0, 30⟩, 100, 800, false⟩

/-- C2 (witness): the interpolation contract evaluated on a concrete task of
duration 800 starting at time 100. -/
theorem animate_interpolation_witness :
    animPos tdA tdA.t0 = tdA.startPos ∧
    animPos tdA 1000 = tdA.endPos ∧
    easeInOutCubic (frameT tdA 300) ≤ easeInOutCubic (frameT tdA 500) :=
  animate_interpolation_spec tdA (by norm_num [tdA]) 300 500 1000 (by norm_num)
    (by norm_num [tdA])

/-- The dblclick handler (viewer.js): `if (topDownAnim) topDownAnim.done =
true;` then `topDownAnim = { …, duration: 800, done: false }`. The channel is
modelled as the history of tasks, head = the `topDownAnim` variable; starting
marks the superseded head done and installs the fresh task. -/
def startTopDown (ts : List TopDownAnim) (sp ep tgt : V3) (t0 : ℚ) :
    List TopDownAnim :=
  (⟨sp, ep, tgt, t0, 800, false⟩ : TopDownAnim) ::
    (match ts with
     | [] => []
     | t :: rest => { t with done := true } :: rest)

/-- The per-frame read in `animate` (viewer.js): a value is applied only when
a task exists and is not done (`if (topDownAnim && !topDownAnim.done)`). -/
def currentValue (ts : List TopDownAnim) (now : ℚ) : Option V3 :=
  match ts with
  | [] => none
  | t :: _ => if t.done then none else some (animPos t now)

/-- The per-frame completion in `animate` (viewer.js): when the active task's
clamped fraction reaches 1, it is marked done (`a.done = true`). -/
def frameStep (ts : List TopDownAnim) (now : ℚ) : List TopDownAnim :=
  match ts with
  | [] => []
  | t :: rest =>
    if t.done = false ∧ 1 ≤ frameT t now then { t with done := true } :: rest
    else t :: rest

/-- Every task below the head of the channel history is done. -/
def tailDone (ts : List TopDownAnim) : Prop := ∀ t ∈ ts.tail, t.done = true

/-- How many tasks of the channel history are not done. -/
def activeCount (ts : List TopDownAnim) : ℕ :=
  (ts.filter (fun t => !t.done)).length

/-- Any number of frames only ever flips the head task's done flag; the tail
is untouched. -/
theorem foldl_frameStep_shape (rest : List TopDownAnim) (ns : List ℚ) :
    ∀ p : TopDownAnim,
      ∃ b : Bool, List.foldl frameStep (p :: rest) ns = { p with done := b } :: rest := by
  induction ns with
  | nil => intro p; exact ⟨p.done, rfl⟩
  | cons n ns ih =>
    intro p
    simp only [List.foldl_cons]
    by_cases hc : (p.done = false ∧ 1 ≤ frameT p n)
    · have hstep : frameStep (p :: rest) n = { p with done := true } :: rest := by
        simp only [frameStep]
        rw [if_pos hc]
      rw [hstep]
      exact ih { p with done := true }
    · have hstep : frameStep (p :: rest) n = p :: rest := by
        simp only [frameStep]
        rw [if_neg hc]
      rw [hstep]
      exact ih p

/-- C3: starting a new top-down task installs it as the channel's current
task, marks the superseded task done, and from then on every per-frame read
returns either nothing or a value computed from the new task's fields alone;
the channel keeps at most one not-done task, and a frame step preserves
that. -/
theorem topdown_supersede_spec (ts : List TopDownAnim) (sp ep tgt : V3)
    (t0 : ℚ) (told : TopDownAnim) (rest : List TopDownAnim) (ns : List ℚ)
    (now fnow : ℚ) (heq : ts = told :: rest) (hInv : tailDone ts) :
    (startTopDown ts sp ep tgt t0).head? =
      some (⟨sp, ep, tgt, t0, 800, false⟩ : TopDownAnim) ∧
    (startTopDown ts sp ep tgt t0).tail.head? = some { told with done := true } ∧
    (currentValue (List.foldl frameStep (startTopDown ts sp ep tgt t0) ns) now = none ∨
     currentValue (List.foldl frameStep (startTopDown ts sp ep tgt t0) ns) now =
       some (animPos (⟨sp, ep, tgt, t0, 800, false⟩ : TopDownAnim) now)) ∧
    tailDone (startTopDown ts sp ep tgt t0) ∧
    activeCount (startTopDown ts sp ep tgt t0) ≤ 1 ∧
    tailDone (frameStep ts fnow) ∧
    activeCount (frameStep ts fnow) ≤ 1 := by
  subst heq
  have hrest : ∀ t ∈ rest, t.done = true := by
    intro t ht
    exact hInv t (by simpa using ht)
  have hrestFilter : rest.filter (fun t => !t.done) = [] := by
    rw [List.filter_eq_nil_iff]
    intro t ht
    simp [hrest t ht]
  refine ⟨rfl, rfl, ?_, ?_, ?_, ?_, ?_⟩
  · obtain ⟨b, hb⟩ :=
      foldl_frameStep_shape ({ told with done := true } :: rest) ns
        (⟨sp, ep, tgt, t0, 800, false⟩ : TopDownAnim)
    rw [show startTopDown (told :: rest) sp ep tgt t0 =
      (⟨sp, ep, tgt, t0, 800, false⟩ : TopDownAnim) ::
        ({ told with done := true } :: rest) from rfl, hb]
    cases b with
    | false => right; rfl
    | true => left; rfl
  · intro t ht
    simp only [startTopDown, List.tail_cons] at ht
    rcases List.mem_cons.mp ht with h | h
    · rw [h]
    · exact hrest t h
  · simp only [activeCount, startTopDown, List.filter_cons, hrestFilter]
    simp
  · intro t ht
    simp only [frameStep] at ht ⊢
    by_cases hc : (told.done = false ∧ 1 ≤ frameT told fnow)
    · rw [if_pos hc] at ht
      exact hrest t (by simpa using ht)
    · rw [if_neg hc] at ht
      exact hrest t (by simpa using ht)
  · simp only [activeCount, frameStep]
    by_cases hc : (told.done = false ∧ 1 ≤ frameT told fnow)
    · rw [if_pos hc]
      simp [List.filter_cons, hrestFilter]
    · rw [if_neg hc]
      rcases Bool.eq_false_or_eq_true told.done with hd | hd
      · simp [List.filter_cons, hrestFilter, hd]
      · simp [List.filter_cons, hrestFilter, hd]

/-- C3 (witness): the supersession contract on a concrete channel holding one
in-flight task. -/
theorem topdown_supersede_witness :
    (startTopDown [tdA] ⟨1, 1, 1⟩ ⟨2, 2, 2⟩ ⟨0, 0, 0⟩ 50).head? =
      some (⟨⟨1, 1, 1⟩, ⟨2, 2, 2⟩, ⟨0, 0, 0⟩, 50, 800, false⟩ : TopDownAnim) ∧
    (startTopDown [tdA] ⟨1, 1, 1⟩ ⟨2, 2, 2⟩ ⟨0, 0, 0⟩ 50).tail.head? =
      some { tdA with done := true } ∧
    (currentValue
        (List.foldl frameStep (startTopDown [tdA] ⟨1, 1, 1⟩ ⟨2, 2, 2⟩ ⟨0, 0, 0⟩ 50)
          [250, 990]) 500 = none ∨
     currentValue
        (List.foldl frameStep (startTopDown [tdA] ⟨1, 1, 1⟩ ⟨2, 2, 2⟩ ⟨0, 0, 0⟩ 50)
          [250, 990]) 500 =
       some (animPos (⟨⟨1, 1, 1⟩, ⟨2, 2, 2⟩, ⟨0, 0, 0⟩, 50, 800, false⟩ : TopDownAnim) 500)) ∧
    tailDone (startTopDown [tdA] ⟨1, 1, 1⟩ ⟨2, 2, 2⟩ ⟨0, 0, 0⟩ 50) ∧
    activeCount (startTopDown [tdA] ⟨1, 1, 1⟩ ⟨2, 2, 2⟩ ⟨0, 0, 0⟩ 50) ≤ 1 ∧
    tailDone (frameStep [tdA] 2000) ∧
    activeCount (frameStep [tdA] 2000) ≤ 1 :=
  topdown_supersede_spec [tdA] ⟨1, 1, 1⟩ ⟨2, 2, 2⟩ ⟨0, 0, 0⟩ 50 tdA [] [250, 990]
    500 2000 rfl (by intro t ht; simp at ht)

/-- A data-point marker group as the hover logic (utils.js `setupTooltips`)
sees it: its `name` (the dataset label) and the one opacity shared by all its
sprites — the sprites of a group share a single `SpriteMaterial`
(csvLoader.js), so `setGroupOpacity` amounts to one scalar per group. -/
structure HGroup where
  name : String
  opacity : ℚ
deriving DecidableEq, Repr

/-- The hover state of `setupTooltips` (utils.js): the data groups of the
scene and the `activeType` variable. -/
structure HoverState where
  groups : List HGroup
  activeType : Option String
deriving DecidableEq, Repr

/-- `FULL_OPACITY` (utils.js). -/
def FULL_OPACITY : ℚ := 1

/-- `DIM_OPACITY` (utils.js): opacity for the non-hovered groups. -/
def DIM_OPACITY : ℚ := 45 / 100

/-- `resetAllGroups` (utils.js): every group back to full opacity and the
active type cleared. -/
def resetAllGroups (st : HoverState) : HoverState :=
  ⟨st.groups.map (fun g => { g with opacity := FULL_OPACITY }), none⟩

/-- The opacity logic of the pointermove handler (utils.js): `hit` is the
dataset type of the nearest intersected marker, if any. On a hit of a new
type, the matching group goes to full opacity and every other data group to
the dimmed opacity; on a miss with an active type, all groups are reset. -/
def hoverStep (st : HoverState) (hit : Option String) : HoverState :=
  match hit with
  | some ty =>
    if st.activeType ≠ some ty then
      ⟨st.groups.map (fun g =>
         { g with opacity := if g.name = ty then FULL_OPACITY else DIM_OPACITY }),
       some ty⟩
    else st
  | none => if st.activeType ≠ none then resetAllGroups st else st

/-- The claimed instant-by-instant invariant: either no hover is active and
every group is at full opacity, or the groups match the hovered category's
dim pattern. -/
def hoverInv (st : HoverState) : Prop :=
  (st.activeType = none ∧ ∀ g ∈ st.groups, g.opacity = FULL_OPACITY) ∨
  (∃ ty, st.activeType = some ty ∧
    ∀ g ∈ st.groups, g.opacity = if g.name = ty then FULL_OPACITY else DIM_OPACITY)

/-- Groups whose opacities follow the dim pattern for a category that names
exactly one group have exactly one fully opaque group. -/
theorem hover_pattern_count (ty : String) :
    ∀ gs : List HGroup, (gs.map HGroup.name).Nodup →
      ty ∈ gs.map HGroup.name →
      (∀ g ∈ gs, g.opacity = if g.name = ty then FULL_OPACITY else DIM_OPACITY) →
      (gs.filter (fun g => g.opacity = FULL_OPACITY)).length = 1 := by
  intro gs
  induction gs with
  | nil => intro _ hmem _; simp at hmem
  | cons g gs ih =>
    intro hnd hmem hop
    have hdim : DIM_OPACITY ≠ FULL_OPACITY := by
      norm_num [DIM_OPACITY, FULL_OPACITY]
    have hopg := hop g (List.mem_cons_self g gs)
    by_cases hg : g.name = ty
    · have hfull : g.opacity = FULL_OPACITY := by rw [hopg, if_pos hg]
      have hrest : gs.filter (fun g => g.opacity = FULL_OPACITY) = [] := by
        rw [List.filter_eq_nil_iff]
        intro a ha
        have hane : a.name ≠ ty := by
          intro hn
          have : g.name ∈ gs.map HGroup.name := by
            rw [hg, ← hn]
            exact List.mem_map_of_mem HGroup.name ha
          exact (List.nodup_cons.mp (by simpa using hnd)).1 this
        have := hop a (List.mem_cons_of_mem g ha)
        rw [if_neg hane] at this
        simp [this, hdim]
      simp [List.filter_cons, hfull, hrest]
    · have hgd : g.opacity = DIM_OPACITY := by rw [hopg, if_neg hg]
      have hmem' : ty ∈ gs.map HGroup.name := by
        rw [List.map_cons] at hmem
        rcases List.mem_cons.mp hmem with h | h
        · exact absurd h.symm hg
        · exact h
      have hnd' : (gs.map HGroup.name).Nodup :=
        (List.nodup_cons.mp (by simpa using hnd)).2
      have hop' : ∀ a ∈ gs,
          a.opacity = if a.name = ty then FULL_OPACITY else DIM_OPACITY :=
        fun a ha => hop a (List.mem_cons_of_mem g ha)
      have hskip : (g :: gs).filter (fun g => g.opacity = FULL_OPACITY) =
          gs.filter (fun g => g.opacity = FULL_OPACITY) := by
        simp [List.filter_cons, hgd, hdim]
      rw [hskip]
      exact ih hnd' hmem' hop'

/-- C4: the hover state machine preserves the dimming invariant — at every
instant either no hover is active and every data group is at full opacity, or
exactly one group (the one named by the hovered category) is at full opacity
while every other data group is at the fixed dimmed opacity — and when hover
is lost all groups are restored to full opacity. -/
theorem hover_dimming_spec (st : HoverState) (hit : Option String) (ty0 : String)
    (hInv : hoverInv st)
    (hnd : (st.groups.map HGroup.name).Nodup)
    (hhit : ∀ ty, hit = some ty → ty ∈ st.groups.map HGroup.name)
    (hty0 : ty0 ∈ st.groups.map HGroup.name) :
    hoverInv (hoverStep st hit) ∧
    (∀ g ∈ (hoverStep st none).groups, g.opacity = FULL_OPACITY) ∧
    ((hoverStep st (some ty0)).groups.filter
        (fun g => g.opacity = FULL_OPACITY)).length = 1 ∧
    (∀ g ∈ (hoverStep st (some ty0)).groups,
      g.name ≠ ty0 → g.opacity = DIM_OPACITY) := by
  have hreset : ∀ g ∈ (resetAllGroups st).groups, g.opacity = FULL_OPACITY := by
    intro g hg
    rcases List.mem_map.mp hg with ⟨a, _, rfl⟩
    rfl
  have hmiss : ∀ g ∈ (hoverStep st none).groups, g.opacity = FULL_OPACITY := by
    intro g hg
    by_cases hact : st.activeType ≠ none
    · rw [hoverStep, if_pos hact] at hg
      exact hreset g hg
    · rw [hoverStep, if_neg hact] at hg
      push_neg at hact
      rcases hInv with ⟨_, hall⟩ | ⟨ty, hty, _⟩
      · exact hall g hg
      · rw [hact] at hty; cases hty
  have hsome : ∀ ty, ty ∈ st.groups.map HGroup.name →
      (∀ g ∈ (hoverStep st (some ty)).groups,
        g.opacity = if g.name = ty then FULL_OPACITY else DIM_OPACITY) ∧
      ((hoverStep st (some ty)).groups.map HGroup.name).Nodup ∧
      ty ∈ (hoverStep st (some ty)).groups.map HGroup.name := by
    intro ty hmem
    by_cases hact : st.activeType ≠ some ty
    · rw [hoverStep, if_pos hact]
      refine ⟨?_, ?_, ?_⟩
      · intro g hg
        rcases List.mem_map.mp hg with ⟨a, _, rfl⟩
        rfl
      · simpa [List.map_map, Function.comp] using hnd
      · simpa [List.map_map, Function.comp] using hmem
    · rw [hoverStep, if_neg hact]
      push_neg at hact
      refine ⟨?_, hnd, hmem⟩
      rcases hInv with ⟨hnone, _⟩ | ⟨ty', hty', hall⟩
      · rw [hnone] at hact; cases hact
      · rw [hty'] at hact
        injection hact with h
        subst h
        exact hall
  refine ⟨?_, hmiss, ?_, ?_⟩
  · cases hit with
    | none =>
      left
      refine ⟨?_, hmiss⟩
      by_cases hact : st.activeType ≠ none
      · rw [hoverStep, if_pos hact]; rfl
      · rw [hoverStep, if_neg hact]; push_neg at hact; exact hact
    | some ty =>
      right
      refine ⟨ty, ?_, (hsome ty (hhit ty rfl)).1⟩
      by_cases hact : st.activeType ≠ some ty
      · rw [hoverStep, if_pos hact]
      · rw [hoverStep, if_neg hact]; push_neg at hact; exact hact
  · obtain ⟨hpat, hnd', hmem'⟩ := hsome ty0 hty0
    exact hover_pattern_count ty0 _ hnd' hmem' hpat
  · intro g hg hne
    have := (hsome ty0 hty0).1 g hg
    rw [if_neg hne] at this
    exact this

/-- C4 (witness): the hover invariant on the three concrete dataset groups of
config.js, hovering the CSO category from the idle state. -/
theorem hover_dimming_witness :
    hoverInv (hoverStep ⟨[⟨"CSO", 1⟩, ⟨"NPDES", 1⟩, ⟨"RCRA", 1⟩], none⟩ (some "CSO")) ∧
    (∀ g ∈ (hoverStep ⟨[⟨"CSO", 1⟩, ⟨"NPDES", 1⟩, ⟨"RCRA", 1⟩], none⟩ none).groups,
      g.opacity = FULL_OPACITY) ∧
    ((hoverStep ⟨[⟨"CSO", 1⟩, ⟨"NPDES", 1⟩, ⟨"RCRA", 1⟩], none⟩ (some "CSO")).groups.filter
        (fun g => g.opacity = FULL_OPACITY)).length = 1 ∧
    (∀ g ∈ (hoverStep ⟨[⟨"CSO", 1⟩, ⟨"NPDES", 1⟩, ⟨"RCRA", 1⟩], none⟩ (some "CSO")).groups,
      g.name ≠ "CSO" → g.opacity = DIM_OPACITY) :=
  hover_dimming_spec ⟨[⟨"CSO", 1⟩, ⟨"NPDES", 1⟩, ⟨"RCRA", 1⟩], none⟩ (some "CSO") "CSO"
    (Or.inl ⟨rfl, by intro g hg; fin_cases hg <;> rfl⟩)
    (by simp)
    (by intro ty h; injection h with h; subst h; simp)
    (by simp)

/-- The pointerup handler (utils.js) together with the guards it consults
(`isDetailOpen` / `justClosed` from detailPanel.js and the
`e.target.closest` overlay test): decides whether `openDetail` is invoked
and with which dataset key. `hit` is the dataset type of the marker found by
the release-position raycast, if any; the handler makes at most this one
`openDetail` call. -/
def pointerupOpen (downX downY upX upY : ℚ)
    (detailOpen closedRecently targetInPanel : Bool) (hit : Option String) :
    Option String :=
  let dx := upX - downX
  let dy := upY - downY
  if dx * dx + dy * dy > 25 then none
  else if detailOpen || closedRecently then none
  else if targetInPanel then none
  else hit

/-- C5: a pointer-down/up pair whose squared displacement exceeds the fixed
threshold 25 triggers no open call; below the threshold, with the overlay not
open, not just closed, and the event target outside the overlay UI, the open
call carries exactly the marker key hit by the release raycast (and none when
nothing is hit); clicks landing on overlay UI trigger none. -/
theorem pointerup_click_spec (downX downY upX upY : ℚ)
    (detailOpen closedRecently targetInPanel : Bool) (hit : Option String) :
    pointerupOpen downX downY upX upY detailOpen closedRecently targetInPanel hit =
      if (upX - downX) * (upX - downX) + (upY - downY) * (upY - downY) > 25 ∨
          detailOpen = true ∨ closedRecently = true ∨ targetInPanel = true then
        none
      else hit := by
  by_cases h1 : (upX - downX) * (upX - downX) + (upY - downY) * (upY - downY) > 25
  · simp [pointerupOpen, h1]
  · cases detailOpen <;> cases closedRecently <;> cases targetInPanel <;>
      simp [pointerupOpen, h1]

/-- The mode-crossfade state of main.js: the scalar `modeT`, the target
endpoint `modeTarget`, whether a RAF tick is scheduled (`modeRafId`), and
`modePrevTime`. -/
structure ModeState where
  modeT : ℚ
  modeTarget : ℚ
  rafPending : Bool
  prevTime : ℚ
deriving DecidableEq, Repr

/-- The dark-mode-btn click handler (main.js): `if (modeRafId) return;` then
set the target to the opposite endpoint, reset the clock and schedule a
tick. -/
def modeClick (s : ModeState) (now : ℚ) : ModeState :=
  if s.rafPending then s
  else
    { s with
      modeTarget := if s.modeT < 1 / 2 then 1 else 0
      prevTime := now
      rafPending := true }

/-- `tickModeFrame` (main.js): move `modeT` by `dt = (now - prev) / 200`
toward the target, clamped at the target; while farther than 0.0001 from the
target keep the animation scheduled, otherwise snap `modeT` to the target
exactly and stop. -/
def tickModeFrame (s : ModeState) (now : ℚ) : ModeState :=
  let dt := (now - s.prevTime) / 200
  let m :=
    if s.modeTarget > s.modeT then min (s.modeT + dt) s.modeTarget
    else max (s.modeT - dt) s.modeTarget
  if |m - s.modeTarget| > 1 / 10000 then
    { s with modeT := m, prevTime := now, rafPending := true }
  else
    { s with modeT := s.modeTarget, prevTime := now, rafPending := false }

/-- C6: a toggle while a crossfade is in flight is a no-op on the whole mode
state; when a tick settles (stops rescheduling), the scalar equals the target
exactly, which is exactly 0 or exactly 1 — never a value strictly between —
and both operations keep the target in {0, 1}. -/
theorem mode_crossfade_spec (s : ModeState) (now : ℚ)
    (htgt : s.modeTarget = 0 ∨ s.modeTarget = 1) :
    (s.rafPending = true → modeClick s now = s) ∧
    ((tickModeFrame s now).rafPending = false →
      (tickModeFrame s now).modeT = s.modeTarget ∧
      ((tickModeFrame s now).modeT = 0 ∨ (tickModeFrame s now).modeT = 1)) ∧
    ((modeClick s now).modeTarget = 0 ∨ (modeClick s now).modeTarget = 1) ∧
    ((tickModeFrame s now).modeTarget = 0 ∨ (tickModeFrame s now).modeTarget = 1) := by
  refine ⟨?_, ?_, ?_, ?_⟩
  · intro h
    rw [modeClick, if_pos h]
  · simp only [tickModeFrame]
    split_ifs with h1 h2 h3 <;>
      first
        | (intro _; exact ⟨rfl, by simpa using htgt⟩)
        | (intro hc; simp at hc)
  · rw [modeClick]
    split_ifs with h h2
    · exact htgt
    · right; rfl
    · left; rfl
  · simp only [tickModeFrame]
    split_ifs <;> simpa using htgt

/-- C6 (witness): the crossfade contract on a concrete in-flight state with
target 1. -/
theorem mode_crossfade_witness :
    ((⟨3 / 10, 1, true, 40⟩ : ModeState).rafPending = true →
      modeClick ⟨3 / 10, 1, true, 40⟩ 50 = ⟨3 / 10, 1, true, 40⟩) ∧
    ((tickModeFrame ⟨3 / 10, 1, true, 40⟩ 50).rafPending = false →
      (tickModeFrame ⟨3 / 10, 1, true, 40⟩ 50).modeT =
        (⟨3 / 10, 1, true, 40⟩ : ModeState).modeTarget ∧
      ((tickModeFrame ⟨3 / 10, 1, true, 40⟩ 50).modeT = 0 ∨
       (tickModeFrame ⟨3 / 10, 1, true, 40⟩ 50).modeT = 1)) ∧
    ((modeClick ⟨3 / 10, 1, true, 40⟩ 50).modeTarget = 0 ∨
     (modeClick ⟨3 / 10, 1, true, 40⟩ 50).modeTarget = 1) ∧
    ((tickModeFrame ⟨3 / 10, 1, true, 40⟩ 50).modeTarget = 0 ∨
     (tickModeFrame ⟨3 / 10, 1, true, 40⟩ 50).modeTarget = 1) :=
  mode_crossfade_spec ⟨3 / 10, 1, true, 40⟩ 50 (Or.inr rfl)

/-- A three-component vector with real components, for the camera-framing
geometry (utils.js `frameBoundingBox`), where normalization needs a square
root. -/
structure V3R where
  x : ℝ
  y : ℝ
  z : ℝ

/-- Componentwise vector addition. -/
def addR (a b : V3R) : V3R := ⟨a.x + b.x, a.y + b.y, a.z + b.z⟩

/-- Componentwise vector subtraction. -/
def subR (a b : V3R) : V3R := ⟨a.x - b.x, a.y - b.y, a.z - b.z⟩

/-- Scalar multiple of a vector. -/
def smulR (c : ℝ) (v : V3R) : V3R := ⟨c * v.x, c * v.y, c * v.z⟩

/-- `Vector3.length` (three.js). -/
noncomputable def normR (v : V3R) : ℝ :=
  Real.sqrt (v.x ^ 2 + v.y ^ 2 + v.z ^ 2)

/-- `Vector3.normalize` (three.js): divide by the length, guarded to 1 for
the zero vector (`divideScalar(this.length() || 1)`). -/
noncomputable def normalizeR (v : V3R) : V3R :=
  smulR (1 / (if normR v = 0 then 1 else normR v)) v

/-- The orthographic camera state touched by `frameBoundingBox` (utils.js). -/
structure CamO where
  pos : V3R
  top : ℝ
  bottom : ℝ
  left : ℝ
  right : ℝ

/-- `frameBoundingBox` (utils.js), orthographic branch: re-target the pivot
to the bounding-box center, keep the viewing direction by placing the camera
10000 units from the center along the normalized old offset, and fit the
frustum to `max(size) × initialZoom` at the current aspect ratio. Returns the
new camera state and the new orbit target. -/
noncomputable def frameBoundingBox (center size : V3R) (cam : CamO) :
    CamO × V3R :=
  let target := center
  let dir := normalizeR (subR cam.pos target)
  let pos' := addR target (smulR 10000 dir)
  let zoomPad : ℝ := 45 / 100
  let maxDim := max (max size.x size.y) size.z * zoomPad
  let aspect := (cam.right - cam.left) / (cam.top - cam.bottom)
  (⟨pos', maxDim, -maxDim, -maxDim * aspect, maxDim * aspect⟩, target)

/-- A nonzero vector has positive length. -/
theorem normR_pos (v : V3R) (hv : v ≠ (⟨0, 0, 0⟩ : V3R)) : 0 < normR v := by
  apply Real.sqrt_pos.mpr
  rcases lt_or_eq_of_le (by positivity : (0 : ℝ) ≤ v.x ^ 2 + v.y ^ 2 + v.z ^ 2)
    with h | h
  · exact h
  · exfalso
    apply hv
    have hx : v.x = 0 := by nlinarith [sq_nonneg v.x, sq_nonneg v.y, sq_nonneg v.z]
    have hy : v.y = 0 := by nlinarith [sq_nonneg v.x, sq_nonneg v.y, sq_nonneg v.z]
    have hz : v.z = 0 := by nlinarith [sq_nonneg v.x, sq_nonneg v.y, sq_nonneg v.z]
    have hv' : v = ⟨v.x, v.y, v.z⟩ := rfl
    rw [hv', hx, hy, hz]

/-- Length of a nonnegative scalar multiple. -/
theorem normR_smul (c : ℝ) (v : V3R) (hc : 0 ≤ c) :
    normR (smulR c v) = c * normR v := by
  unfold normR smulR
  rw [show (c * v.x) ^ 2 + (c * v.y) ^ 2 + (c * v.z) ^ 2 =
        c ^ 2 * (v.x ^ 2 + v.y ^ 2 + v.z ^ 2) from by ring,
      Real.sqrt_mul (sq_nonneg c), Real.sqrt_sq hc]

/-- Normalizing is invariant under positive rescaling. -/
theorem normalizeR_smul (c : ℝ) (v : V3R) (hc : 0 < c)
    (hv : v ≠ (⟨0, 0, 0⟩ : V3R)) :
    normalizeR (smulR c v) = normalizeR v := by
  have hn := normR_pos v hv
  have hs : normR (smulR c v) = c * normR v := normR_smul c v hc.le
  have hc0 : c ≠ 0 := ne_of_gt hc
  have hn0 : normR v ≠ 0 := ne_of_gt hn
  unfold normalizeR
  rw [hs, if_neg (by positivity), if_neg hn0]
  unfold smulR
  have key : ∀ w : ℝ, 1 / (c * normR v) * (c * w) = 1 / normR v * w := by
    intro w
    rw [one_div, one_div, mul_inv]
    calc c⁻¹ * (normR v)⁻¹ * (c * w) = c⁻¹ * c * ((normR v)⁻¹ * w) := by ring
      _ = (normR v)⁻¹ * w := by rw [inv_mul_cancel₀ hc0, one_mul]
  congr 1 <;> exact key _

/-- Subtracting the base of a translation recovers the offset. -/
theorem sub_addR (c w : V3R) : subR (addR c w) c = w := by
  have hw : w = ⟨w.x, w.y, w.z⟩ := rfl
  rw [hw]
  unfold subR addR
  congr 1 <;> ring

/-- Composition of scalings. -/
theorem smulR_smulR (a b : ℝ) (v : V3R) :
    smulR a (smulR b v) = smulR (a * b) v := by
  unfold smulR
  congr 1 <;> ring

/-- `frameBoundingBox` written out: the let-bindings expanded. -/
theorem frameBoundingBox_eq (center size : V3R) (cam : CamO) :
    frameBoundingBox center size cam =
      (⟨addR center (smulR 10000 (normalizeR (subR cam.pos center))),
        max (max size.x size.y) size.z * (45 / 100),
        -(max (max size.x size.y) size.z * (45 / 100)),
        -(max (max size.x size.y) size.z * (45 / 100)) *
          ((cam.right - cam.left) / (cam.top - cam.bottom)),
        max (max size.x size.y) size.z * (45 / 100) *
          ((cam.right - cam.left) / (cam.top - cam.bottom))⟩,
       center) := rfl

/-- A symmetric frustum scaled by a common factor keeps its aspect ratio. -/
theorem aspect_cancel (m a : ℝ) (hm : m ≠ 0) :
    (m * a - -m * a) / (m - -m) = a := by
  rw [show m * a - -m * a = 2 * m * a from by ring,
      show m - -m = 2 * m from by ring]
  exact mul_div_cancel_left₀ a (mul_ne_zero two_ne_zero hm)

/-- C7: the camera framer sets the frustum half-height to
`max(extents) × 0.45` (top and bottom symmetric), re-targets the orbit pivot
to the bounding-box center, keeps the camera on the ray from the center
through its old position (viewing direction preserved), keeps the frustum
aspect ratio, and is idempotent: framing the same object twice equals framing
it once. -/
theorem frameBoundingBox_spec (center size : V3R) (cam : CamO)
    (hpos : subR cam.pos center ≠ (⟨0, 0, 0⟩ : V3R))
    (hdim : 0 < max (max size.x size.y) size.z)
    (hab : cam.top - cam.bottom ≠ 0) :
    (frameBoundingBox center size cam).1.top =
      max (max size.x size.y) size.z * (45 / 100) ∧
    (frameBoundingBox center size cam).1.bottom =
      -(max (max size.x size.y) size.z * (45 / 100)) ∧
    (frameBoundingBox center size cam).2 = center ∧
    (∃ s : ℝ, 0 < s ∧
      subR (frameBoundingBox center size cam).1.pos center =
        smulR s (subR cam.pos center)) ∧
    ((frameBoundingBox center size cam).1.right -
        (frameBoundingBox center size cam).1.left) /
      ((frameBoundingBox center size cam).1.top -
        (frameBoundingBox center size cam).1.bottom) =
      (cam.right - cam.left) / (cam.top - cam.bottom) ∧
    frameBoundingBox center size (frameBoundingBox center size cam).1 =
      frameBoundingBox center size cam := by
  have hn : 0 < normR (subR cam.pos center) := normR_pos _ hpos
  have hn0 : normR (subR cam.pos center) ≠ 0 := ne_of_gt hn
  have hM : 0 < max (max size.x size.y) size.z * (45 / 100 : ℝ) :=
    mul_pos hdim (by norm_num)
  have hsub : subR (addR center (smulR 10000 (normalizeR (subR cam.pos center))))
      center = smulR (10000 / normR (subR cam.pos center)) (subR cam.pos center) := by
    rw [sub_addR]
    unfold normalizeR
    rw [if_neg hn0, smulR_smulR, mul_one_div]
  have hnorm2 :
      normalizeR (subR (addR center (smulR 10000 (normalizeR (subR cam.pos center))))
        center) = normalizeR (subR cam.pos center) := by
    rw [hsub]
    exact normalizeR_smul _ _ (by positivity) hpos
  refine ⟨rfl, rfl, rfl, ?_, ?_, ?_⟩
  · simp only [frameBoundingBox_eq]
    exact ⟨10000 / normR (subR cam.pos center), by positivity, hsub⟩
  · simp only [frameBoundingBox_eq]
    exact aspect_cancel _ _ (ne_of_gt hM)
  · simp only [frameBoundingBox_eq]
    rw [hnorm2,
      aspect_cancel (max (max size.x size.y) size.z * (45 / 100))
        ((cam.right - cam.left) / (cam.top - cam.bottom)) (ne_of_gt hM)]

/-- A concrete bounding-box center for the framer witness. -/
def wCenter : V3R := ⟨0, 0, 0⟩

/-- A concrete bounding-box extent vector for the framer witness. -/
def wSize : V3R := ⟨1, 2, 3⟩

/-- A concrete orthographic camera for the framer witness. -/
def wCam : CamO := ⟨⟨6, 0, 8⟩, 5, -5, -10, 10⟩

/-- C7 (witness): the framing contract on a concrete camera and bounding
volume. -/
theorem frameBoundingBox_witness :
    (frameBoundingBox wCenter wSize wCam).1.top =
      max (max wSize.x wSize.y) wSize.z * (45 / 100) ∧
    (frameBoundingBox wCenter wSize wCam).1.bottom =
      -(max (max wSize.x wSize.y) wSize.z * (45 / 100)) ∧
    (frameBoundingBox wCenter wSize wCam).2 = wCenter ∧
    (∃ s : ℝ, 0 < s ∧
      subR (frameBoundingBox wCenter wSize wCam).1.pos wCenter =
        smulR s (subR wCam.pos wCenter)) ∧
    ((frameBoundingBox wCenter wSize wCam).1.right -
        (frameBoundingBox wCenter wSize wCam).1.left) /
      ((frameBoundingBox wCenter wSize wCam).1.top -
        (frameBoundingBox wCenter wSize wCam).1.bottom) =
      (wCam.right - wCam.left) / (wCam.top - wCam.bottom) ∧
    frameBoundingBox wCenter wSize (frameBoundingBox wCenter wSize wCam).1 =
      frameBoundingBox wCenter wSize wCam :=
  frameBoundingBox_spec wCenter wSize wCam
    (by
      intro h
      have hx := congrArg V3R.x h
      norm_num [subR, wCam, wCenter] at hx)
    (lt_of_lt_of_le (by norm_num [wSize] : (0 : ℝ) < wSize.z) (le_max_right _ _))
    (by norm_num [wCam])

/-- A parsed CSV row (`parseCSV`, csvLoader.js): the fields used by
`loadCSVPoints`, each a raw string. -/
structure Row where
  X : String
  Y : String
  EntityHandle : String
  Text : String
deriving DecidableEq, Repr

/-- Digits accumulated into a natural number. -/
def natOfDigits (ds : List Char) : ℕ :=
  ds.foldl (fun n c => 10 * n + (c.toNat - 48)) 0

/-- Model of the JavaScript `parseFloat` builtin used by `loadCSVPoints`
(without exponent notation, which the coordinate CSVs do not use): skip
leading whitespace, read an optional sign, then digits with an optional
fractional part, ignoring trailing garbage; `none` stands for `NaN` (no
digits at all). -/
def jsParseFloat (s : String) : Option ℚ :=
  let cs := s.data.dropWhile Char.isWhitespace
  let sign : ℚ := if cs.head? = some '-' then -1 else 1
  let cs1 := if cs.head? = some '-' ∨ cs.head? = some '+' then cs.tail else cs
  let intDs := cs1.takeWhile Char.isDigit
  let rest := cs1.dropWhile Char.isDigit
  let fracDs := if rest.head? = some '.' then rest.tail.takeWhile Char.isDigit else []
  if intDs.isEmpty ∧ fracDs.isEmpty then none
  else some (sign * ((natOfDigits intDs : ℚ) + (natOfDigits fracDs : ℚ) / 10 ^ fracDs.length))

/-- A marker sprite as built by `loadCSVPoints` (csvLoader.js): scene
position from `toSceneCoords`, the `userData` fields, and the identity of
the material it references. -/
structure SpriteM where
  position : V3
  typeLabel : String
  handle : String
  text : String
  coordX : ℚ
  coordY : ℚ
  matId : ℕ
deriving DecidableEq, Repr

/-- A marker group as built by `loadCSVPoints`: label, the id of the group's
single shared `SpriteMaterial`, and the sprites. -/
structure GroupM where
  name : String
  matId : ℕ
  sprites : List SpriteM
deriving DecidableEq, Repr

/-- One sprite of `loadCSVPoints`: position `toSceneCoords x y`, metadata
from the row, material shared with the group. -/
def mkSprite (label : String) (mid : ℕ) (r : Row) (x y : ℚ) : SpriteM :=
  ⟨toSceneCoords x y, label, r.EntityHandle, r.Text, x, y, mid⟩

/-- `loadCSVPoints` (csvLoader.js): one `SpriteMaterial` is created for the
group and shared by every sprite; for each row, `parseFloat` both coordinate
fields and skip the row (`return`) when either is NaN, otherwise add one
sprite. -/
def loadCSVPoints (label : String) (rows : List Row) : GroupM :=
  ⟨label, 0,
    rows.filterMap (fun r =>
      match jsParseFloat r.X, jsParseFloat r.Y with
      | some x, some y => some (mkSprite label 0 r x y)
      | _, _ => none)⟩

/-- The console output of one `loadCSVPoints` call: a single aggregate line
(`[csvLoader] label: n points loaded from path`); nothing is logged per
row. -/
def loadCSVLog (label csvPath : String) (rows : List Row) : List String :=
  ["[csvLoader] " ++ label ++ ": " ++
    toString (loadCSVPoints label rows).sprites.length ++
    " points loaded from " ++ csvPath]

/-- The sprites of a loaded group are exactly one per row with both
coordinates numeric, in order. -/
theorem loadCSV_sprites_eq (label : String) (rows : List Row) :
    (loadCSVPoints label rows).sprites =
      (rows.filter
          (fun r => (jsParseFloat r.X).isSome && (jsParseFloat r.Y).isSome)).map
        (fun r =>
          mkSprite label 0 r ((jsParseFloat r.X).getD 0) ((jsParseFloat r.Y).getD 0)) := by
  induction rows with
  | nil => rfl
  | cons r rs ih =>
    simp only [loadCSVPoints] at ih ⊢
    rw [List.filterMap_cons, List.filter_cons]
    cases hx : jsParseFloat r.X with
    | none => simpa [hx] using ih
    | some x =>
      cases hy : jsParseFloat r.Y with
      | none => simpa [hx, hy] using ih
      | some y => simpa [hx, hy] using ih

/-- C8 (counterexample): the claim says a row with a non-numeric coordinate
is "logged"; but the loader's only console line is the aggregate count, so
the log output with a malformed row present is identical to the log output
with that row absent — the skipped row leaves no trace in the log. -/
theorem csv_malformed_not_logged_cex :
    (loadCSVPoints "CSO" [⟨"abc", "12", "", ""⟩]).sprites = [] ∧
    loadCSVLog "CSO" "./data/cso_2263_clipped.csv" [⟨"abc", "12", "", ""⟩] =
      loadCSVLog "CSO" "./data/cso_2263_clipped.csv" [] := by
  constructor <;> rfl

/-- C8 (amended): a row whose X or Y field is not numeric is skipped silently
(the loader logs only one aggregate count line, never the malformed row) and
loading continues: the group holds exactly one sprite per row with both
coordinates numeric, in order, and prepending a malformed row changes neither
the sprites nor the log. -/
theorem csv_skip_malformed_spec (label csvPath : String) (rows : List Row)
    (bad : Row) (hbad : jsParseFloat bad.X = none ∨ jsParseFloat bad.Y = none) :
    (loadCSVPoints label rows).sprites =
      (rows.filter
          (fun r => (jsParseFloat r.X).isSome && (jsParseFloat r.Y).isSome)).map
        (fun r =>
          mkSprite label 0 r ((jsParseFloat r.X).getD 0) ((jsParseFloat r.Y).getD 0)) ∧
    (loadCSVPoints label (bad :: rows)).sprites = (loadCSVPoints label rows).sprites ∧
    loadCSVLog label csvPath (bad :: rows) = loadCSVLog label csvPath rows := by
  have hdrop :
      (loadCSVPoints label (bad :: rows)).sprites = (loadCSVPoints label rows).sprites := by
    simp only [loadCSVPoints]
    rw [List.filterMap_cons]
    rcases hbad with h | h
    · cases hy : jsParseFloat bad.Y <;> simp [h, hy]
    · cases hx : jsParseFloat bad.X <;> simp [h, hx]
  refine ⟨loadCSV_sprites_eq label rows, hdrop, ?_⟩
  unfold loadCSVLog
  rw [hdrop]

/-- C8 (witness): the amended skip contract on a concrete list with one good
row, prepending a concrete malformed row. -/
theorem csv_skip_malformed_witness :
    (loadCSVPoints "CSO" [⟨"10", "20", "h1", "t1"⟩]).sprites =
      ([⟨"10", "20", "h1", "t1"⟩].filter
          (fun r : Row => (jsParseFloat r.X).isSome && (jsParseFloat r.Y).isSome)).map
        (fun r =>
          mkSprite "CSO" 0 r ((jsParseFloat r.X).getD 0) ((jsParseFloat r.Y).getD 0)) ∧
    (loadCSVPoints "CSO" [⟨"oops", "20", "", ""⟩, ⟨"10", "20", "h1", "t1"⟩]).sprites =
      (loadCSVPoints "CSO" [⟨"10", "20", "h1", "t1"⟩]).sprites ∧
    loadCSVLog "CSO" "p.csv" [⟨"oops", "20", "", ""⟩, ⟨"10", "20", "h1", "t1"⟩] =
      loadCSVLog "CSO" "p.csv" [⟨"10", "20", "h1", "t1"⟩] :=
  csv_skip_malformed_spec "CSO" "p.csv" [⟨"10", "20", "h1", "t1"⟩]
    ⟨"oops", "20", "", ""⟩ (Or.inl rfl)

/-- Every sprite of a loaded group carries the group's material id. -/
theorem loadCSV_matId (label : String) (rows : List Row) (s : SpriteM)
    (hs : s ∈ (loadCSVPoints label rows).sprites) :
    s.matId = (loadCSVPoints label rows).matId := by
  rw [loadCSV_sprites_eq] at hs
  rcases List.mem_map.mp hs with ⟨r, _, rfl⟩
  rfl

/-- Opacity store indexed by material id: `material.opacity = v` on the
material with identity `mid`. -/
def setMatOpacity (store : ℕ → ℚ) (mid : ℕ) (v : ℚ) : ℕ → ℚ :=
  fun i => if i = mid then v else store i

/-- The opacity a sprite displays: the opacity of the material it
references (`sprite.material.opacity`). -/
def spriteOpacity (store : ℕ → ℚ) (s : SpriteM) : ℚ := store s.matId

/-- C9: all sprites of a group built by `loadCSVPoints` reference the group's
single shared material, so any two sprites of the group always display the
same opacity, and setting the opacity through any one sprite's material sets
it for every sprite of the group. -/
theorem shared_material_spec (label : String) (rows : List Row)
    (store : ℕ → ℚ) (v : ℚ) (s1 s2 : SpriteM)
    (h1 : s1 ∈ (loadCSVPoints label rows).sprites)
    (h2 : s2 ∈ (loadCSVPoints label rows).sprites) :
    s1.matId = (loadCSVPoints label rows).matId ∧
    s2.matId = (loadCSVPoints label rows).matId ∧
    spriteOpacity store s1 = spriteOpacity store s2 ∧
    spriteOpacity (setMatOpacity store s1.matId v) s2 = v := by
  have e1 := loadCSV_matId label rows s1 h1
  have e2 := loadCSV_matId label rows s2 h2
  refine ⟨e1, e2, ?_, ?_⟩
  · unfold spriteOpacity
    rw [e1, e2]
  · unfold spriteOpacity setMatOpacity
    rw [e1, e2]
    simp

/-- A concrete pair of numeric rows for the shared-material witness. -/
def wRows : List Row := [⟨"10", "20", "h1", "t1"⟩, ⟨"30", "40", "h2", "t2"⟩]

/-- The sprite built from the first witness row. -/
def wS1 : SpriteM :=
  mkSprite "CSO" 0 ⟨"10", "20", "h1", "t1"⟩
    ((jsParseFloat "10").getD 0) ((jsParseFloat "20").getD 0)

/-- The sprite built from the second witness row. -/
def wS2 : SpriteM :=
  mkSprite "CSO" 0 ⟨"30", "40", "h2", "t2"⟩
    ((jsParseFloat "30").getD 0) ((jsParseFloat "40").getD 0)

/-- C9 (witness): the shared-material contract on a concrete group of two
sprites, a concrete store and opacity value. -/
theorem shared_material_witness :
    wS1.matId = (loadCSVPoints "CSO" wRows).matId ∧
    wS2.matId = (loadCSVPoints "CSO" wRows).matId ∧
    spriteOpacity (fun _ => 1) wS1 = spriteOpacity (fun _ => 1) wS2 ∧
    spriteOpacity (setMatOpacity (fun _ => 1) wS1.matId (45 / 100)) wS2 = 45 / 100 :=
  shared_material_spec "CSO" wRows (fun _ => 1) (45 / 100) wS1 wS2
    (by rw [loadCSV_sprites_eq]; exact List.mem_cons_self _ _)
    (by rw [loadCSV_sprites_eq]; exact List.mem_cons_of_mem _ (List.mem_cons_self _ _))

/-- An orientation quaternion, carried as plain data by the resize model
(the handler never touches it). -/
structure QuatQ where
  qx : ℚ
  qy : ℚ
  qz : ℚ
  qw : ℚ
deriving DecidableEq, Repr

/-- The full camera state the resize handler (viewer.js) can see: frustum
planes, pose, and the OrbitControls zoom factor. -/
structure CamFull where
  position : V3
  quaternion : QuatQ
  top : ℚ
  bottom : ℚ
  left : ℚ
  right : ℚ
  zoom : ℚ
deriving DecidableEq, Repr

/-- The window-resize handler (viewer.js): `halfH = camera.top`, set
`left/right = ∓halfH × (w/h)`, update the projection, and resize both the
WebGL renderer and the label renderer to the new container size. Returns the
new camera state and the two renderer sizes. -/
def resizeStep (cam : CamFull) (w h : ℚ) : CamFull × (ℚ × ℚ) × (ℚ × ℚ) :=
  let a := w / h
  let halfH := cam.top
  ({ cam with left := -halfH * a, right := halfH * a }, (w, h), (w, h))

/-- C10: a resize leaves the frustum top and bottom planes, the camera
position, orientation and zoom unchanged; only left/right are recomputed from
the preserved half-height and the new aspect ratio, and both renderer
viewports take the new size. -/
theorem resize_spec (cam : CamFull) (w h : ℚ) :
    (resizeStep cam w h).1.top = cam.top ∧
    (resizeStep cam w h).1.bottom = cam.bottom ∧
    (resizeStep cam w h).1.position = cam.position ∧
    (resizeStep cam w h).1.quaternion = cam.quaternion ∧
    (resizeStep cam w h).1.zoom = cam.zoom ∧
    (resizeStep cam w h).1.left = -cam.top * (w / h) ∧
    (resizeStep cam w h).1.right = cam.top * (w / h) ∧
    (resizeStep cam w h).2.1 = (w, h) ∧
    (resizeStep cam w h).2.2 = (w, h) :=
  ⟨rfl, rfl, rfl, rfl, rfl, rfl, rfl, rfl, rfl⟩
